import Mathlib

/-!
Verification development for the `learn-graphics` rendering demo.

The Rust sources are shallowly embedded:
* `geo_gen.rs` — procedural geometry (`create_square`, `create_floor`,
  `create_cube`, and the memoizing UV-sphere generator `SphereGenerator`);
* `world_space.rs` — `InstanceTransform::to_raw` (model matrix of an instance);
* `light.rs` — `cal_cutoff` and `LightRenderGroup::render`;
* `model.rs` — `ModelRenderGroup::render`;
* `lib.rs` — `GeoRenderGroup::render` dispatch, `State::resize`, and the
  surface-error handling arm of the event loop in `run`.

Machine `f32` values are modelled as exact rationals (for the purely
arithmetic generators, where the only operation is division by 2, which is
exact in `f32`) or as real numbers (where trigonometry is involved).  The
`u16` vertex counter of the sphere generator is modelled as a natural number
reduced modulo `2 ^ 16 = 65536`, matching wrap-around semantics.
-/

namespace LearnGraphics

/-! ## Vertices and geometry objects (`geo_gen.rs`) -/

/-- `Vertex { position, tex_coords, normal }` from `geo_gen.rs`, generic in the
scalar type standing in for `f32`. -/
structure Vertex (α : Type) where
  position : α × α × α
  texCoords : α × α
  normal : α × α × α
deriving Repr, DecidableEq

/-- The CPU-side data of `GeoObj` from `geo_gen.rs`: the vertex list and the
index list (the GPU buffer handles carry no logical content). -/
structure GeoObj (α : Type) where
  vertexData : List (Vertex α)
  indexData : List ℕ
deriving Repr, DecidableEq

/-- `GeoObj::get_index_range`: `0..index_data.len()`. -/
def GeoObj.get_index_range {α : Type} (o : GeoObj α) : ℕ × ℕ :=
  (0, o.indexData.length)

/-- `create_square(height, width)` from `geo_gen.rs`. -/
def create_square (height width : ℚ) : GeoObj ℚ :=
  let half_width := width / 2
  let half_height := height / 2
  { vertexData :=
      [ ⟨(half_width, half_height, 0), (1, 1), (0, 0, 1)⟩,
        ⟨(-half_width, half_height, 0), (0, 1), (0, 0, 1)⟩,
        ⟨(-half_width, -half_height, 0), (0, 0), (0, 0, 1)⟩,
        ⟨(half_width, -half_height, 0), (1, 0), (0, 0, 1)⟩ ],
    indexData := [0, 1, 2, 2, 3, 0] }

/-- `create_floor(height, width)` from `geo_gen.rs` (UVs scaled by 100). -/
def create_floor (height width : ℚ) : GeoObj ℚ :=
  let half_width := width / 2
  let half_height := height / 2
  let mul : ℚ := 100
  { vertexData :=
      [ ⟨(half_width, half_height, 0), (mul, mul), (0, 0, 1)⟩,
        ⟨(-half_width, half_height, 0), (0, mul), (0, 0, 1)⟩,
        ⟨(-half_width, -half_height, 0), (0, 0), (0, 0, 1)⟩,
        ⟨(half_width, -half_height, 0), (mul, 0), (0, 0, 1)⟩ ],
    indexData := [0, 1, 2, 2, 3, 0] }

/-- `create_cube(size)` from `geo_gen.rs`: 8 corner vertices at `±size/2`. -/
def create_cube (size : ℚ) : GeoObj ℚ :=
  let half := size / 2
  { vertexData :=
      [ ⟨(-half, -half, half), (0, 0), (0, 0, 1)⟩,
        ⟨(half, -half, half), (0, 0), (0, 0, 1)⟩,
        ⟨(half, half, half), (0, 0), (0, 0, 1)⟩,
        ⟨(-half, half, half), (0, 0), (0, 0, 1)⟩,
        ⟨(-half, -half, -half), (0, 0), (0, 0, 1)⟩,
        ⟨(half, -half, -half), (0, 0), (0, 0, 1)⟩,
        ⟨(half, half, -half), (0, 0), (0, 0, 1)⟩,
        ⟨(-half, half, -half), (0, 0), (0, 0, 1)⟩ ],
    indexData :=
      [ 0, 1, 2, 2, 3, 0,   -- front
        4, 7, 6, 6, 5, 4,   -- back
        3, 2, 6, 6, 7, 3,   -- top
        0, 4, 5, 5, 1, 0,   -- bottom
        0, 3, 7, 7, 4, 0,   -- left
        1, 5, 6, 6, 2, 1 ]  -- right
  }

/-- The six consecutive index triplet-pairs of the cube, one per face:
face `f` occupies positions `6*f .. 6*f+5` of the cube's index list. -/
def cubeFaceBlock (size : ℚ) (f : ℕ) : List ℕ :=
  ((create_cube size).indexData.drop (6 * f)).take 6

/-- The supporting plane of cube face `f` (front, back, top, bottom, left,
right in the order the index list emits them), as a predicate on vertex
positions of `create_cube size`. -/
def onCubeFace (size : ℚ) (f : ℕ) (p : ℚ × ℚ × ℚ) : Prop :=
  match f with
  | 0 => p.2.2 = size / 2
  | 1 => p.2.2 = -(size / 2)
  | 2 => p.2.1 = size / 2
  | 3 => p.2.1 = -(size / 2)
  | 4 => p.1 = -(size / 2)
  | _ => p.1 = size / 2

/-! ## The memoizing UV-sphere generator (`geo_gen.rs`) -/

/-- State of `SphereGenerator` from `geo_gen.rs`, generic in the vertex type.
The Rust fields `radius`, `u_frag`, `v_frag` only feed `create_sphere_vertex`;
they are abstracted into the field `mkVertex`, which maps the latitude step and the
longitude step of a grid slot to the vertex created for it (the real-valued
instantiation `sphereMk` below recovers the Rust computation).  The 2D memo
grid `enqueued : Vec<Vec<Option<u16>>>` (dimensions `(u+1) × (v+1)`, accessed
as `enqueued[u_step][v_step]`) is modelled as a total function on the two step
indices; the algorithm only ever touches in-bounds slots.  The `u16` counter
`index` is kept reduced modulo `65536`. -/
structure SphereGenerator (V : Type) where
  u : ℕ
  v : ℕ
  mkVertex : ℕ → ℕ → V
  vertexData : List V
  indexData : List ℕ
  enqueued : ℕ → ℕ → Option ℕ
  index : ℕ

/-- `SphereGenerator::new`: empty buffers, all-`None` memo grid, counter 0. -/
def SphereGenerator.new {V : Type} (mkVertex : ℕ → ℕ → V) (u v : ℕ) :
    SphereGenerator V :=
  { u := u, v := v, mkVertex := mkVertex, vertexData := [], indexData := [],
    enqueued := fun _ _ => none, index := 0 }

/-- `SphereGenerator::get_index(v, u)`: return the memoized index of grid slot
`(u, v)` if present; otherwise create the slot's vertex, append it, memoize the
current counter value and return it, bumping the (wrapping `u16`) counter. -/
def SphereGenerator.getIndex {V : Type} (s : SphereGenerator V)
    (vs us : ℕ) : ℕ × SphereGenerator V :=
  match s.enqueued us vs with
  | some ind => (ind, s)
  | none =>
      (s.index,
        { s with
          vertexData := s.vertexData ++ [s.mkVertex vs us],
          enqueued := fun a b =>
            if a = us ∧ b = vs then some s.index else s.enqueued a b,
          index := (s.index + 1) % 65536 })

/-- One iteration of the double loop in `SphereGenerator::build_sphere` for
the cell at latitude step `i`, longitude step `j`: fetch the four corner
indices `p0 = (i,j)`, `p1 = (i+1,j)`, `p2 = (i+1,j+1)`, `p3 = (i,j+1)` and
append the two triangles `p0,p1,p3` and `p3,p1,p2`. -/
def SphereGenerator.buildCell {V : Type} (s : SphereGenerator V)
    (i j : ℕ) : SphereGenerator V :=
  let r0 := s.getIndex i j
  let r1 := r0.2.getIndex (i + 1) j
  let r2 := r1.2.getIndex (i + 1) (j + 1)
  let r3 := r2.2.getIndex i (j + 1)
  { r3.2 with
    indexData := r3.2.indexData ++ [r0.1, r1.1, r3.1, r3.1, r1.1, r2.1] }

/-- `SphereGenerator::build_sphere`: the double loop
`for i in 0..self.v { for j in 0..self.u { ... } }`. -/
def SphereGenerator.buildSphere {V : Type} (s : SphereGenerator V) :
    SphereGenerator V :=
  (List.range s.v).foldl
    (fun t i => (List.range s.u).foldl (fun t' j => t'.buildCell i j) t) s

/-- `create_sphere_vertex(theta, phi)` from `geo_gen.rs`, with `f32`
trigonometry modelled over `ℝ`. -/
noncomputable def create_sphere_vertex (radius θ φ : ℝ) : Vertex ℝ :=
  let r := radius
  let x := r * Real.sin θ * Real.cos φ
  let y := r * Real.cos θ
  let z := -(r * Real.sin θ * Real.sin φ)
  { position := (x, y, z),
    texCoords := (φ / (2 * Real.pi), 1 - θ / Real.pi),
    normal := (x / r, y / r, z / r) }

/-- The vertex built for grid slot `(u_step = us, v_step = vs)`:
`theta = vs * v_frag`, `phi = us * u_frag` with `v_frag = π / v`,
`u_frag = 2π / u` as in `SphereGenerator::new`. -/
noncomputable def sphereMk (radius : ℝ) (u v : ℕ) (vs us : ℕ) : Vertex ℝ :=
  create_sphere_vertex radius (vs * (Real.pi / v)) (us * (2 * Real.pi / u))

/-- `create_sphere(radius, u, v)` from `geo_gen.rs` (the generator state after
`build_sphere`; `create_obj` merely moves the two buffers out). -/
noncomputable def create_sphere (radius : ℝ) (u v : ℕ) :
    SphereGenerator (Vertex ℝ) :=
  (SphereGenerator.new (sphereMk radius u v) u v).buildSphere

/-- The list of lattice cells `(i, j)` visited by `build_sphere`, in visit
order: `i` (latitude) outer over `0..v`, `j` (longitude) inner over `0..u`. -/
def cellList (u v : ℕ) : List (ℕ × ℕ) :=
  (List.range v).flatMap (fun i => (List.range u).map (fun j => (i, j)))

/-- Folding `buildCell` over an explicit list of cells. -/
def SphereGenerator.processCells {V : Type} (s : SphereGenerator V)
    (cells : List (ℕ × ℕ)) : SphereGenerator V :=
  cells.foldl (fun t c => t.buildCell c.1 c.2) s

/-- The 6 indices emitted for cell `(i, j)` as recovered from a generator
state's memo grid: `[p0, p1, p3, p3, p1, p2]` with `p0` the index of slot
`(j, i)`, `p1` of `(j, i+1)`, `p2` of `(j+1, i+1)`, `p3` of `(j+1, i)`. -/
def SphereGenerator.blockOf {V : Type} (t : SphereGenerator V)
    (i j : ℕ) : List ℕ :=
  let e := fun a b => (t.enqueued a b).getD 0
  [e j i, e j (i + 1), e (j + 1) i, e (j + 1) i, e j (i + 1), e (j + 1) (i + 1)]

/-! ## Instance transforms (`world_space.rs`)

`cgmath` matrices are column-major; we embed them as ordinary mathematical
matrices (`Matrix (Fin 4) (Fin 4) R`, row index first), translating each
`MatrixN::new(c0r0, c0r1, ...)` call column by column.  Everything is generic
over a commutative ring standing in for `f32`. -/

/-- `cgmath::Quaternion { s, v: Vector3 { x, y, z } }`. -/
structure Quat (R : Type) where
  s : R
  vx : R
  vy : R
  vz : R

/-- `InstanceTransform { position, rotation }` from `world_space.rs`. -/
structure InstanceTransform (R : Type) where
  position : R × R × R
  rotation : Quat R

/-- `cgmath::Matrix4::from_translation(v)`: identity with `(x, y, z, 1)` as
the fourth column. -/
def mat4FromTranslation {R : Type} [CommRing R] (p : R × R × R) :
    Matrix (Fin 4) (Fin 4) R :=
  !![1, 0, 0, p.1;
     0, 1, 0, p.2.1;
     0, 0, 1, p.2.2;
     0, 0, 0, 1]

/-- `cgmath`'s `Matrix3::from(Quaternion)` (the same arithmetic fills the
upper-left block of `Matrix4::from(Quaternion)`): with `x2 = 2x` etc.,
column 0 is `(1 - yy2 - zz2, xy2 + sz2, xz2 - sy2)` and so on. -/
def mat3FromQuat {R : Type} [CommRing R] (q : Quat R) :
    Matrix (Fin 3) (Fin 3) R :=
  let x2 := q.vx + q.vx
  let y2 := q.vy + q.vy
  let z2 := q.vz + q.vz
  let xx2 := x2 * q.vx
  let xy2 := x2 * q.vy
  let xz2 := x2 * q.vz
  let yy2 := y2 * q.vy
  let yz2 := y2 * q.vz
  let zz2 := z2 * q.vz
  let sy2 := y2 * q.s
  let sz2 := z2 * q.s
  let sx2 := x2 * q.s
  !![1 - yy2 - zz2, xy2 - sz2, xz2 + sy2;
     xy2 + sz2, 1 - xx2 - zz2, yz2 - sx2;
     xz2 - sy2, yz2 + sx2, 1 - xx2 - yy2]

/-- `cgmath::Matrix4::from(Quaternion)`: the rotation block bordered by the
homogeneous row and column `(0, 0, 0, 1)`. -/
def mat4FromQuat {R : Type} [CommRing R] (q : Quat R) :
    Matrix (Fin 4) (Fin 4) R :=
  let m := mat3FromQuat q
  !![m 0 0, m 0 1, m 0 2, 0;
     m 1 0, m 1 1, m 1 2, 0;
     m 2 0, m 2 1, m 2 2, 0;
     0, 0, 0, 1]

/-- The `model` matrix computed by `InstanceTransform::to_raw`:
`Matrix4::from_translation(self.position) * Matrix4::from(self.rotation)`. -/
def InstanceTransform.to_raw_model {R : Type} [CommRing R]
    (t : InstanceTransform R) : Matrix (Fin 4) (Fin 4) R :=
  mat4FromTranslation t.position * mat4FromQuat t.rotation

/-- Modelled from the spec's words for the round-trip property: the 4×4
translation matrix `translation(p)`. -/
def specTranslation {R : Type} [CommRing R] (p : R × R × R) :
    Matrix (Fin 4) (Fin 4) R :=
  !![1, 0, 0, p.1;
     0, 1, 0, p.2.1;
     0, 0, 1, p.2.2;
     0, 0, 0, 1]

/-- Modelled from the spec's words for the round-trip property: the
homogeneous rotation matrix `rotation_matrix(q)` of a unit quaternion
`q = w + xi + yj + zk`, in the textbook form whose diagonal is
`w² + x² - y² - z²` etc. (equal to `cgmath`'s form only when `‖q‖ = 1`). -/
def specRotationMatrix {R : Type} [CommRing R] (q : Quat R) :
    Matrix (Fin 4) (Fin 4) R :=
  let w := q.s
  let x := q.vx
  let y := q.vy
  let z := q.vz
  !![w^2 + x^2 - y^2 - z^2, 2*x*y - 2*w*z, 2*x*z + 2*w*y, 0;
     2*x*y + 2*w*z, w^2 - x^2 + y^2 - z^2, 2*y*z - 2*w*x, 0;
     2*x*z - 2*w*y, 2*y*z + 2*w*x, w^2 - x^2 - y^2 + z^2, 0;
     0, 0, 0, 1]

/-! ## Render groups as command streams (`lib.rs`, `geo_gen.rs`, `light.rs`,
`model.rs`)

A `wgpu::RenderPass` is modelled as the list of commands recorded on it.
Draw ranges `a..b` become pairs `(a, b)`. -/

/-- The render-pass commands the three `render` implementations record.
Payloads keep exactly the logically relevant data: binding slot numbers and
draw ranges. -/
inductive RenderCommand where
  | setPipeline : RenderCommand
  | setBindGroup : ℕ → RenderCommand
  | setVertexBuffer : ℕ → RenderCommand
  | setIndexBuffer : RenderCommand
  | drawIndexed : (ℕ × ℕ) → ℤ → (ℕ × ℕ) → RenderCommand
deriving Repr, DecidableEq

/-- Is a command a draw call? -/
def RenderCommand.isDraw : RenderCommand → Bool
  | .drawIndexed _ _ _ => true
  | _ => false

/-- `Instances` from `world_space.rs`, reduced to its transform list. -/
structure Instances (R : Type) where
  instance_transforms : List (InstanceTransform R)

/-- `Instances::get_instance_range`: `0..len`. -/
def Instances.get_instance_range {R : Type} (i : Instances R) : ℕ × ℕ :=
  (0, i.instance_transforms.length)

/-- `Entity` from `geo_gen.rs`, reduced to its geometry. -/
structure Entity (α : Type) where
  obj : GeoObj α

/-- `GeoRenderGroup` from `geo_gen.rs`. -/
structure GeoRenderGroup (α R : Type) where
  entity : Entity α
  instances : Instances R

/-- `GeoRenderGroup::render` (`geo_gen.rs` lines 171–180): set pipeline,
texture bind group, both vertex buffers, the index buffer, then one
`draw_indexed(0..index_len, 0, 0..instance_len)`. -/
def GeoRenderGroup.render {α R : Type} (g : GeoRenderGroup α R) :
    List RenderCommand :=
  [ .setPipeline,
    .setBindGroup 2,
    .setVertexBuffer 0,
    .setVertexBuffer 1,
    .setIndexBuffer,
    .drawIndexed g.entity.obj.get_index_range 0 g.instances.get_instance_range ]

/-- `LightUniform` from `light.rs` (the per-frame `view_proj` matrix carries
no content relevant to the claims and is omitted; `color[3]` is the component
`LightRenderGroup::render` tests). -/
structure LightUniform where
  position : ℚ × ℚ × ℚ
  direction : ℚ × ℚ × ℚ
  color : ℚ × ℚ × ℚ × ℚ
  diffuse_strength : ℚ
  ambient_strength : ℚ
  specular_strength : ℚ
  point_clq : ℚ × ℚ × ℚ × ℚ
  cutoff_inner_outer_eps : ℚ × ℚ × ℚ × ℚ
deriving Repr, DecidableEq

/-- The alpha component `color[3]`. -/
def LightUniform.alpha (l : LightUniform) : ℚ := l.color.2.2.2

/-- `LightRenderGroup` from `light.rs`: the uniforms and, zipped with them,
the per-light `(buffer, bind_group, obj)` triplets (only the `GeoObj` member
carries logical content). -/
structure LightRenderGroup where
  light_uniforms : List LightUniform
  light_objs : List (GeoObj ℚ)

/-- `LightRenderGroup::render` (`light.rs` lines 226–241): return immediately
on a shadow pass; otherwise set the pipeline and, for each light whose
`color[3]` is nonzero, bind its resources and issue
`draw_indexed(0..obj_index_len, 0, 0..1)`, skipping zero-alpha lights; finally
rebind the all-lights bind group. -/
def LightRenderGroup.render (g : LightRenderGroup)
    (shadow_pass : Bool) : List RenderCommand :=
  if shadow_pass then []
  else
    [RenderCommand.setPipeline] ++
    (List.zip g.light_uniforms g.light_objs).flatMap (fun lo =>
      if lo.1.alpha = 0 then []
      else
        [ .setBindGroup 1,
          .setVertexBuffer 0,
          .setIndexBuffer,
          .drawIndexed lo.2.get_index_range 0 (0, 1) ]) ++
    [RenderCommand.setBindGroup 1]

/-- `Mesh` from `model.rs`, reduced to its index count and material slot. -/
structure Mesh where
  num_elements : ℕ
  material : ℕ

/-- `Model` from `model.rs`, reduced to its meshes. -/
structure Model where
  meshes : List Mesh

/-- `ModelRenderGroup` from `model.rs`. -/
structure ModelRenderGroup (R : Type) where
  model : Model
  instances : Instances R

/-- `ModelRenderGroup::draw_mesh_instanced` (`model.rs` lines 171–182). -/
def draw_mesh_instanced (mesh : Mesh) (instances : ℕ × ℕ) :
    List RenderCommand :=
  [ .setVertexBuffer 1,
    .setIndexBuffer,
    .setBindGroup 2,
    .setBindGroup 3,
    .drawIndexed (0, mesh.num_elements) 0 instances ]

/-- `ModelRenderGroup::render` (`model.rs` lines 185–199): set pipeline and
instance buffer, then draw every mesh with the full instance range. -/
def ModelRenderGroup.render {R : Type} (g : ModelRenderGroup R) :
    List RenderCommand :=
  [RenderCommand.setPipeline, RenderCommand.setVertexBuffer 0] ++
  g.model.meshes.flatMap
    (fun mesh => draw_mesh_instanced mesh g.instances.get_instance_range)

/-! ## Spotlight cutoff (`light.rs`) -/

/-- `cal_cutoff(inner, outer)` from `light.rs`: cosines are taken of angles
given in degrees; the `assert!(inner > outer)` on the cosines is modelled by
returning `none` when it fails (a panic).  `Deg(d).cos()` is
`cos (d * π / 180)`. -/
noncomputable def cal_cutoff (inner outer : ℝ) : Option (ℝ × ℝ × ℝ × ℝ) :=
  let i := Real.cos (inner * Real.pi / 180)
  let o := Real.cos (outer * Real.pi / 180)
  if o < i then some (i, o, i - o, 1) else none

/-! ## Event-loop surface-error handling (`lib.rs`) -/

/-- `wgpu::SurfaceError` (the four variants of wgpu 0.12). -/
inductive SurfaceError where
  | Timeout
  | Outdated
  | Lost
  | OutOfMemory
deriving Repr, DecidableEq

/-- The pieces of `State` that `resize` and the error-handling arm touch,
plus two observers: `surfaceGen` counts `surface.configure` calls and
`reports` counts `eprintln!` executions; `exited` records
`*control_flow = ControlFlow::Exit`. -/
structure LoopState where
  size : ℕ × ℕ
  configWidth : ℕ
  configHeight : ℕ
  surfaceGen : ℕ
  reports : ℕ
  exited : Bool
deriving Repr, DecidableEq

/-- `State::resize(new_size)` (`lib.rs` lines 331–344): only when both
dimensions are positive, store the new size, update the surface
configuration and reconfigure the surface (observed by `surfaceGen`). -/
def resize (s : LoopState) (new_size : ℕ × ℕ) : LoopState :=
  if 0 < new_size.1 ∧ 0 < new_size.2 then
    { s with
      size := new_size,
      configWidth := new_size.1,
      configHeight := new_size.2,
      surfaceGen := s.surfaceGen + 1 }
  else s

/-- The `match state.render() { ... }` arm of the event loop (`lib.rs` lines
567–575): `Ok` does nothing, `Lost` calls `state.resize(state.size)`,
`OutOfMemory` exits, every other error is printed and the loop continues. -/
def handleRenderResult (s : LoopState) : Option SurfaceError → LoopState
  | none => s
  | some .Lost => resize s s.size
  | some .OutOfMemory => { s with exited := true }
  | some _ => { s with reports := s.reports + 1 }

/-! ## Theorems -/

/-- C6: for every width `w` and height `h`, `create_square` produces exactly 4
vertices, axis-aligned and symmetric about the origin (x coordinates `±w/2`,
y coordinates `±h/2`, z = 0), with all four sign combinations present, and
index list `[0,1,2,2,3,0]`; in particular `create_square(height=26, width=40)`
yields 4 vertices with X ∈ {20, -20} and Y ∈ {13, -13} and that index list. -/
theorem create_square_spec :
    (∀ height width : ℚ,
      (create_square height width).vertexData.length = 4 ∧
      (∀ vtx ∈ (create_square height width).vertexData,
        (vtx.position.1 = width / 2 ∨ vtx.position.1 = -(width / 2)) ∧
        (vtx.position.2.1 = height / 2 ∨ vtx.position.2.1 = -(height / 2)) ∧
        vtx.position.2.2 = 0) ∧
      ((create_square height width).vertexData.map Vertex.position =
        [ (width / 2, height / 2, 0), (-(width / 2), height / 2, 0),
          (-(width / 2), -(height / 2), 0), (width / 2, -(height / 2), 0) ]) ∧
      (create_square height width).indexData = [0, 1, 2, 2, 3, 0]) ∧
    ((∀ vtx ∈ (create_square 26 40).vertexData,
        (vtx.position.1 = 20 ∨ vtx.position.1 = -20) ∧
        (vtx.position.2.1 = 13 ∨ vtx.position.2.1 = -13)) ∧
      (create_square 26 40).indexData = [0, 1, 2, 2, 3, 0]) := by
  constructor
  · intro height width
    refine ⟨rfl, ?_, by simp [create_square], rfl⟩
    intro vtx hv
    simp only [create_square, List.mem_cons, List.not_mem_nil, or_false] at hv
    rcases hv with rfl | rfl | rfl | rfl <;> simp
  · constructor
    · intro vtx hv
      simp only [create_square, List.mem_cons, List.not_mem_nil, or_false] at hv
      rcases hv with rfl | rfl | rfl | rfl <;> norm_num
    · rfl

/-- C5: for every size, `create_cube` emits exactly 8 vertices and 36 indices
(12 triangles), and each face's six indices reference only vertices lying on
that face's supporting plane (hence only the 4 vertices of that face's quad). -/
theorem create_cube_spec :
    ∀ size : ℚ,
      (create_cube size).vertexData.length = 8 ∧
      (create_cube size).indexData.length = 36 ∧
      ∀ f < 6, ∀ idx ∈ cubeFaceBlock size f,
        ∃ h : idx < (create_cube size).vertexData.length,
          onCubeFace size f (((create_cube size).vertexData.get ⟨idx, h⟩).position) := by
  intro size
  refine ⟨rfl, rfl, ?_⟩
  intro f hf idx hidx
  interval_cases f <;>
    simp only [cubeFaceBlock, create_cube, List.drop, List.take,
      List.mem_cons, List.not_mem_nil, or_false] at hidx <;>
    rcases hidx with rfl | rfl | rfl | rfl | rfl | rfl <;>
    exact ⟨by norm_num [create_cube], rfl⟩

/-- C8: in the frame loop, `SurfaceError::Lost` is handled by calling
`resize` with the current size (which reconfigures the surface) and the loop
continues; `OutOfMemory` exits; the remaining surface errors (`Timeout`,
`Outdated`) are merely reported and the loop continues unchanged; a
successful frame leaves the state untouched. -/
theorem surface_error_handling (s : LoopState) :
    handleRenderResult s (some .Lost) = resize s s.size ∧
    handleRenderResult s (some .OutOfMemory) = { s with exited := true } ∧
    handleRenderResult s (some .Timeout) = { s with reports := s.reports + 1 } ∧
    handleRenderResult s (some .Outdated) = { s with reports := s.reports + 1 } ∧
    handleRenderResult s none = s := by
  exact ⟨rfl, rfl, rfl, rfl, rfl⟩

/-- `cos (30°) < cos (4°)`: the precondition of the one `cal_cutoff` call. -/
theorem cos_thirty_lt_cos_four :
    Real.cos (30 * Real.pi / 180) < Real.cos (4 * Real.pi / 180) := by
  have hpi := Real.pi_pos
  apply Real.cos_lt_cos_of_nonneg_of_le_pi
  · positivity
  · nlinarith
  · nlinarith

/-- C10: `cal_cutoff` returns normally iff `cos inner > cos outer` (angles in
degrees), in which case the result is
`[cos inner, cos outer, cos inner - cos outer, 1]`; its only call site,
`cal_cutoff(4.0, 30.0)`, satisfies the precondition. -/
theorem cal_cutoff_spec :
    (∀ inner outer : ℝ,
      (cal_cutoff inner outer).isSome ↔
        Real.cos (outer * Real.pi / 180) < Real.cos (inner * Real.pi / 180)) ∧
    (∀ inner outer : ℝ,
      Real.cos (outer * Real.pi / 180) < Real.cos (inner * Real.pi / 180) →
        cal_cutoff inner outer =
          some (Real.cos (inner * Real.pi / 180),
            Real.cos (outer * Real.pi / 180),
            Real.cos (inner * Real.pi / 180) - Real.cos (outer * Real.pi / 180),
            1)) ∧
    cal_cutoff 4 30 =
      some (Real.cos (4 * Real.pi / 180), Real.cos (30 * Real.pi / 180),
        Real.cos (4 * Real.pi / 180) - Real.cos (30 * Real.pi / 180), 1) := by
  refine ⟨?_, ?_, ?_⟩
  · intro inner outer
    simp only [cal_cutoff]
    split <;> simp_all
  · intro inner outer h
    simp only [cal_cutoff, if_pos h]
  · simp only [cal_cutoff, if_pos cos_thirty_lt_cos_four]

/-- Closed witness for `cal_cutoff_spec`: the guarded conjunct applied at the
program's only call site. -/
theorem cal_cutoff_spec_witness :
    cal_cutoff 4 30 =
      some (Real.cos (4 * Real.pi / 180), Real.cos (30 * Real.pi / 180),
        Real.cos (4 * Real.pi / 180) - Real.cos (30 * Real.pi / 180), 1) :=
  cal_cutoff_spec.2.1 4 30 cos_thirty_lt_cos_four

/-- A light render group shaped like the second light `State::new` registers:
default position and direction, default color `[1, 1, 1, 0]` (alpha 0), and a
mesh with 36 indices. -/
def exampleLightGroup : LightRenderGroup :=
  { light_uniforms :=
      [ { position := (40, 20, -40), direction := (0, 0, 0),
          color := (1, 1, 1, 0), diffuse_strength := 1,
          ambient_strength := 1 / 100, specular_strength := 3 / 10,
          point_clq := (1, 9 / 200, 3 / 400, 1),
          cutoff_inner_outer_eps := (0, 0, 0, 0) } ],
    light_objs := [create_cube 10] }

/-- C3 fails as stated: `LightRenderGroup::render` can skip drawing.  On a
shadow pass it records nothing at all, and outside shadow passes it skips
every light whose `color[3]` is zero — here a registered group with one
zero-alpha light (the configuration `State::new` actually builds) issues no
draw call whatsoever. -/
theorem light_render_group_skips :
    exampleLightGroup.render true = [] ∧
    (exampleLightGroup.render false).filter RenderCommand.isDraw = [] := by
  constructor
  · rfl
  · rfl

/-- The draws recorded by `flatMap`-ing `draw_mesh_instanced` over meshes. -/
theorem filter_draw_mesh_instanced (meshes : List Mesh) (inst : ℕ × ℕ) :
    ((meshes.flatMap (fun m => draw_mesh_instanced m inst)).filter
        RenderCommand.isDraw) =
      meshes.map (fun m => RenderCommand.drawIndexed (0, m.num_elements) 0 inst) := by
  induction meshes with
  | nil => rfl
  | cons m ms ih =>
      simp only [List.flatMap_cons, List.filter_append, ih, List.map_cons]
      rfl

/-- The draws recorded by the per-light loop of `LightRenderGroup::render`. -/
theorem filter_light_loop (los : List (LightUniform × GeoObj ℚ)) :
    ((los.flatMap (fun lo =>
        if lo.1.alpha = 0 then ([] : List RenderCommand)
        else
          [ .setBindGroup 1, .setVertexBuffer 0, .setIndexBuffer,
            .drawIndexed lo.2.get_index_range 0 (0, 1) ])).filter
        RenderCommand.isDraw) =
      los.filterMap (fun lo =>
        if lo.1.alpha = 0 then none
        else some (.drawIndexed (0, lo.2.indexData.length) 0 (0, 1))) := by
  induction los with
  | nil => rfl
  | cons lo los ih =>
      simp only [List.flatMap_cons, List.filter_append, ih, List.filterMap_cons]
      by_cases h : lo.1.alpha = 0
      · simp [h]
      · simp only [if_neg h]
        rfl

/-- C3, amended: `GeoRenderGroup::render` and `ModelRenderGroup::render`
draw unconditionally — one draw per group (resp. per mesh) covering the full
index range and the full instance range.  `LightRenderGroup::render`,
however, records nothing on a shadow pass, and otherwise issues one
full-index-range draw with instance range `0..1` per light, skipping exactly
the lights whose `color[3]` is zero. -/
theorem render_group_draw_calls :
    (∀ (α R : Type) (g : GeoRenderGroup α R),
      (g.render).filter RenderCommand.isDraw =
        [ .drawIndexed (0, g.entity.obj.indexData.length) 0
            (0, g.instances.instance_transforms.length) ]) ∧
    (∀ (R : Type) (g : ModelRenderGroup R),
      (g.render).filter RenderCommand.isDraw =
        g.model.meshes.map (fun m =>
          RenderCommand.drawIndexed (0, m.num_elements) 0
            (0, g.instances.instance_transforms.length))) ∧
    (∀ g : LightRenderGroup,
      g.render true = [] ∧
      (g.render false).filter RenderCommand.isDraw =
        (List.zip g.light_uniforms g.light_objs).filterMap (fun lo =>
          if lo.1.alpha = 0 then none
          else some (.drawIndexed (0, lo.2.indexData.length) 0 (0, 1)))) := by
  refine ⟨fun α R g => rfl, fun R g => ?_, fun g => ⟨rfl, ?_⟩⟩
  · simp only [ModelRenderGroup.render, List.filter_append,
      filter_draw_mesh_instanced, Instances.get_instance_range]
    rfl
  · simp only [LightRenderGroup.render, if_neg (Bool.false_ne_true),
      List.filter_append, filter_light_loop]
    simp [List.filter, RenderCommand.isDraw]

/-! ## C4: the instance-transform model matrix -/

/-- C4: for every position `p` and unit quaternion `q`, the `model` matrix of
`InstanceTransform::to_raw` equals `translation(p) * rotation_matrix(q)`,
where `rotation_matrix` is the textbook homogeneous rotation matrix of a unit
quaternion. -/
theorem to_raw_model_spec {R : Type} [CommRing R] (p : R × R × R) (q : Quat R)
    (hq : q.s ^ 2 + q.vx ^ 2 + q.vy ^ 2 + q.vz ^ 2 = 1) :
    (InstanceTransform.mk p q).to_raw_model =
      specTranslation p * specRotationMatrix q := by
  unfold InstanceTransform.to_raw_model mat4FromTranslation mat4FromQuat
    mat3FromQuat specTranslation specRotationMatrix
  ext i j
  fin_cases i <;> fin_cases j <;>
    simp [Matrix.mul_apply, Fin.sum_univ_four] <;>
    first
      | ring1
      | linear_combination hq
      | linear_combination (-1 : R) * hq

/-- Closed witness for `to_raw_model_spec`: the identity rotation placed at
`(1, 2, 3)` over `ℚ`. -/
theorem to_raw_model_spec_witness :
    ((1 : ℚ) ^ 2 + 0 ^ 2 + 0 ^ 2 + 0 ^ 2 = 1) ∧
    (InstanceTransform.mk ((1 : ℚ), 2, 3) ⟨1, 0, 0, 0⟩).to_raw_model =
      specTranslation ((1 : ℚ), 2, 3) * specRotationMatrix ⟨1, 0, 0, 0⟩ :=
  ⟨by norm_num, to_raw_model_spec ((1 : ℚ), 2, 3) ⟨1, 0, 0, 0⟩ (by norm_num)⟩

/-! ## Sphere generator: basic step lemmas -/

namespace SphereGenerator

variable {V : Type}

theorem getIndex_u (s : SphereGenerator V) (vs us : ℕ) :
    (s.getIndex vs us).2.u = s.u := by
  unfold getIndex
  cases h : s.enqueued us vs <;> simp [h]

theorem getIndex_v (s : SphereGenerator V) (vs us : ℕ) :
    (s.getIndex vs us).2.v = s.v := by
  unfold getIndex
  cases h : s.enqueued us vs <;> simp [h]

theorem getIndex_mkVertex (s : SphereGenerator V) (vs us : ℕ) :
    (s.getIndex vs us).2.mkVertex = s.mkVertex := by
  unfold getIndex
  cases h : s.enqueued us vs <;> simp [h]

theorem getIndex_indexData (s : SphereGenerator V) (vs us : ℕ) :
    (s.getIndex vs us).2.indexData = s.indexData := by
  unfold getIndex
  cases h : s.enqueued us vs <;> simp [h]

theorem getIndex_len_le (s : SphereGenerator V) (vs us : ℕ) :
    s.vertexData.length ≤ (s.getIndex vs us).2.vertexData.length := by
  unfold getIndex
  cases h : s.enqueued us vs <;> simp [h]

/-- The memo grid is write-once: an entry already present survives `getIndex`. -/
theorem getIndex_enq_mono (s : SphereGenerator V) (vs us a b x : ℕ)
    (h : s.enqueued a b = some x) :
    (s.getIndex vs us).2.enqueued a b = some x := by
  unfold getIndex
  cases hq : s.enqueued us vs with
  | some ind => simpa using h
  | none =>
      simp only
      by_cases hab : a = us ∧ b = vs
      · exact absurd h (by rw [hab.1, hab.2, hq]; simp)
      · simp [hab, h]

/-- After `getIndex`, the queried slot holds exactly the returned index. -/
theorem getIndex_ret (s : SphereGenerator V) (vs us : ℕ) :
    (s.getIndex vs us).2.enqueued us vs = some (s.getIndex vs us).1 := by
  unfold getIndex
  cases hq : s.enqueued us vs with
  | some ind => simpa using hq
  | none => simp

/-- A vertex present after `getIndex` was present before or is the one the
call creates. -/
theorem getIndex_vertex_mem (s : SphereGenerator V) (vs us : ℕ) (x : V)
    (h : x ∈ (s.getIndex vs us).2.vertexData) :
    x ∈ s.vertexData ∨ x = s.mkVertex vs us := by
  unfold getIndex at h
  cases hq : s.enqueued us vs with
  | some ind => rw [hq] at h; simp at h; exact Or.inl h
  | none => rw [hq] at h; simp at h; exact h

/-- Well-formedness carried through the build: the `u16` counter mirrors the
vertex count modulo `2^16`, and every memoized or emitted index is the
reduction of the rank of an already-created vertex. -/
def WF (s : SphereGenerator V) : Prop :=
  s.index = s.vertexData.length % 65536 ∧
  (∀ a b x, s.enqueued a b = some x →
    ∃ m, m < s.vertexData.length ∧ x = m % 65536) ∧
  (∀ x ∈ s.indexData, ∃ m, m < s.vertexData.length ∧ x = m % 65536)

theorem getIndex_wf (s : SphereGenerator V) (vs us : ℕ) (h : WF s) :
    WF (s.getIndex vs us).2 := by
  obtain ⟨hidx, henq, hdat⟩ := h
  unfold getIndex
  cases hq : s.enqueued us vs with
  | some ind => simpa using ⟨hidx, henq, hdat⟩
  | none =>
      refine ⟨?_, ?_, ?_⟩
      · simp [hidx, Nat.add_mod]
      · intro a b x hx
        simp only at hx
        by_cases hab : a = us ∧ b = vs
        · simp only [if_pos hab] at hx
          exact ⟨s.vertexData.length, by simp, by
            simpa [hidx] using hx.symm⟩
        · simp only [if_neg hab] at hx
          obtain ⟨m, hm, hxm⟩ := henq a b x hx
          exact ⟨m, by simp; omega, hxm⟩
      · intro x hx
        simp only at hx
        obtain ⟨m, hm, hxm⟩ := hdat x hx
        exact ⟨m, by simp; omega, hxm⟩

/-- The index returned by `getIndex` is the reduced rank of a vertex existing
afterwards. -/
theorem getIndex_fst_bound (s : SphereGenerator V) (vs us : ℕ) (h : WF s) :
    ∃ m, m < (s.getIndex vs us).2.vertexData.length ∧
      (s.getIndex vs us).1 = m % 65536 := by
  obtain ⟨hidx, henq, hdat⟩ := h
  unfold getIndex
  cases hq : s.enqueued us vs with
  | some ind =>
      obtain ⟨m, hm, hxm⟩ := henq us vs ind hq
      exact ⟨m, by simpa using hm, by simpa using hxm⟩
  | none =>
      exact ⟨s.vertexData.length, by simp, by simpa using hidx⟩

/-! ### Cell-level lemmas -/

theorem buildCell_mkVertex (s : SphereGenerator V) (i j : ℕ) :
    (s.buildCell i j).mkVertex = s.mkVertex := by
  unfold buildCell
  simp [getIndex_mkVertex]

theorem buildCell_indexData_len (s : SphereGenerator V) (i j : ℕ) :
    (s.buildCell i j).indexData.length = s.indexData.length + 6 := by
  unfold buildCell
  simp [getIndex_indexData]

theorem buildCell_len_le (s : SphereGenerator V) (i j : ℕ) :
    s.vertexData.length ≤ (s.buildCell i j).vertexData.length := by
  unfold buildCell
  simp only
  calc s.vertexData.length
      ≤ (s.getIndex i j).2.vertexData.length := getIndex_len_le ..
    _ ≤ ((s.getIndex i j).2.getIndex (i+1) j).2.vertexData.length :=
        getIndex_len_le ..
    _ ≤ (((s.getIndex i j).2.getIndex (i+1) j).2.getIndex (i+1)
          (j+1)).2.vertexData.length := getIndex_len_le ..
    _ ≤ ((((s.getIndex i j).2.getIndex (i+1) j).2.getIndex (i+1)
          (j+1)).2.getIndex i (j+1)).2.vertexData.length := getIndex_len_le ..

theorem buildCell_enq_mono (s : SphereGenerator V) (i j a b x : ℕ)
    (h : s.enqueued a b = some x) :
    (s.buildCell i j).enqueued a b = some x := by
  unfold buildCell
  simp only
  exact getIndex_enq_mono _ _ _ _ _ _
    (getIndex_enq_mono _ _ _ _ _ _
      (getIndex_enq_mono _ _ _ _ _ _
        (getIndex_enq_mono _ _ _ _ _ _ h)))

theorem buildCell_wf (s : SphereGenerator V) (i j : ℕ) (h : WF s) :
    WF (s.buildCell i j) := by
  unfold buildCell
  simp only
  set t0 := s.getIndex i j with ht0
  set t1 := t0.2.getIndex (i+1) j with ht1
  set t2 := t1.2.getIndex (i+1) (j+1) with ht2
  set t3 := t2.2.getIndex i (j+1) with ht3
  have w0 : WF t0.2 := getIndex_wf _ _ _ h
  have w1 : WF t1.2 := getIndex_wf _ _ _ w0
  have w2 : WF t2.2 := getIndex_wf _ _ _ w1
  have w3 : WF t3.2 := getIndex_wf _ _ _ w2
  have l01 : t0.2.vertexData.length ≤ t1.2.vertexData.length := getIndex_len_le ..
  have l12 : t1.2.vertexData.length ≤ t2.2.vertexData.length := getIndex_len_le ..
  have l23 : t2.2.vertexData.length ≤ t3.2.vertexData.length := getIndex_len_le ..
  have b0 : ∃ m, m < t0.2.vertexData.length ∧ t0.1 = m % 65536 :=
    getIndex_fst_bound _ _ _ h
  have b1 : ∃ m, m < t1.2.vertexData.length ∧ t1.1 = m % 65536 :=
    getIndex_fst_bound _ _ _ w0
  have b2 : ∃ m, m < t2.2.vertexData.length ∧ t2.1 = m % 65536 :=
    getIndex_fst_bound _ _ _ w1
  have b3 : ∃ m, m < t3.2.vertexData.length ∧ t3.1 = m % 65536 :=
    getIndex_fst_bound _ _ _ w2
  obtain ⟨hidx, henq, hdat⟩ := w3
  refine ⟨hidx, henq, ?_⟩
  intro x hx
  show ∃ m, m < t3.2.vertexData.length ∧ x = m % 65536
  simp only [List.mem_append, List.mem_cons, List.not_mem_nil, or_false] at hx
  obtain ⟨m0, hm0, he0⟩ := b0
  obtain ⟨m1, hm1, he1⟩ := b1
  obtain ⟨m2, hm2, he2⟩ := b2
  obtain ⟨m3, hm3, he3⟩ := b3
  rcases hx with hx | rfl | rfl | rfl | rfl | rfl | rfl
  · obtain ⟨m, hm, hxm⟩ := hdat x (by
      rw [getIndex_indexData] at hx ⊢
      exact hx)
    exact ⟨m, hm, hxm⟩
  · exact ⟨m0, by omega, he0⟩
  · exact ⟨m1, by omega, he1⟩
  · exact ⟨m3, hm3, he3⟩
  · exact ⟨m3, hm3, he3⟩
  · exact ⟨m1, by omega, he1⟩
  · exact ⟨m2, by omega, he2⟩

/-- A vertex present after `buildCell` was present before or was created by
the state's `mkVertex`. -/
theorem buildCell_vertex_mem (s : SphereGenerator V) (i j : ℕ) (x : V)
    (h : x ∈ (s.buildCell i j).vertexData) :
    x ∈ s.vertexData ∨ ∃ a b, x = s.mkVertex a b := by
  unfold buildCell at h
  simp only at h
  have m0 := getIndex_mkVertex s i j
  have m1 := getIndex_mkVertex (s.getIndex i j).2 (i+1) j
  have m2 := getIndex_mkVertex ((s.getIndex i j).2.getIndex (i+1) j).2 (i+1) (j+1)
  rcases getIndex_vertex_mem _ _ _ _ h with h3 | h3
  · rcases getIndex_vertex_mem _ _ _ _ h3 with h2 | h2
    · rcases getIndex_vertex_mem _ _ _ _ h2 with h1 | h1
      · rcases getIndex_vertex_mem _ _ _ _ h1 with h0 | h0
        · exact Or.inl h0
        · exact Or.inr ⟨i, j, h0⟩
      · exact Or.inr ⟨i + 1, j, by rw [h1, m0]⟩
    · exact Or.inr ⟨i + 1, j + 1, by rw [h2, m1, m0]⟩
  · exact Or.inr ⟨i, j + 1, by rw [h3, m2, m1, m0]⟩

/-! ### Fold-level lemmas -/

theorem processCells_nil (s : SphereGenerator V) :
    s.processCells [] = s := rfl

theorem processCells_cons (s : SphereGenerator V) (c : ℕ × ℕ)
    (cs : List (ℕ × ℕ)) :
    s.processCells (c :: cs) = (s.buildCell c.1 c.2).processCells cs := rfl

theorem processCells_append (s : SphereGenerator V) (as bs : List (ℕ × ℕ)) :
    s.processCells (as ++ bs) = (s.processCells as).processCells bs :=
  List.foldl_append ..

theorem processCells_mkVertex (s : SphereGenerator V) (cells : List (ℕ × ℕ)) :
    (s.processCells cells).mkVertex = s.mkVertex := by
  induction cells generalizing s with
  | nil => rfl
  | cons c cs ih => rw [processCells_cons, ih, buildCell_mkVertex]

theorem processCells_enq_mono (s : SphereGenerator V) (cells : List (ℕ × ℕ))
    (a b x : ℕ) (h : s.enqueued a b = some x) :
    (s.processCells cells).enqueued a b = some x := by
  induction cells generalizing s with
  | nil => exact h
  | cons c cs ih =>
      rw [processCells_cons]
      exact ih _ (buildCell_enq_mono _ _ _ _ _ _ h)

theorem processCells_wf (s : SphereGenerator V) (cells : List (ℕ × ℕ))
    (h : WF s) : WF (s.processCells cells) := by
  induction cells generalizing s with
  | nil => exact h
  | cons c cs ih =>
      rw [processCells_cons]
      exact ih _ (buildCell_wf _ _ _ h)

theorem processCells_indexData_len (s : SphereGenerator V)
    (cells : List (ℕ × ℕ)) :
    (s.processCells cells).indexData.length =
      s.indexData.length + 6 * cells.length := by
  induction cells generalizing s with
  | nil => simp [processCells_nil]
  | cons c cs ih =>
      rw [processCells_cons, ih, buildCell_indexData_len]
      simp [List.length_cons]
      omega

theorem processCells_vertex_mem (s : SphereGenerator V)
    (cells : List (ℕ × ℕ)) (x : V)
    (h : x ∈ (s.processCells cells).vertexData) :
    x ∈ s.vertexData ∨ ∃ a b, x = s.mkVertex a b := by
  induction cells generalizing s with
  | nil => exact Or.inl h
  | cons c cs ih =>
      rw [processCells_cons] at h
      rcases ih _ h with h0 | h0
      · rcases buildCell_vertex_mem _ _ _ _ h0 with h1 | h1
        · exact Or.inl h1
        · exact Or.inr h1
      · obtain ⟨a, b, hab⟩ := h0
        rw [buildCell_mkVertex] at hab
        exact Or.inr ⟨a, b, hab⟩

/-- The nested `for` loops of `build_sphere` are the fold over `cellList`. -/
theorem foldl_inner_row (i : ℕ) (js : List ℕ) (t : SphereGenerator V) :
    js.foldl (fun t' j => t'.buildCell i j) t =
      t.processCells (js.map (fun j => (i, j))) := by
  induction js generalizing t with
  | nil => rfl
  | cons j js ih => simp [processCells_cons, ih]

theorem foldl_nested (N : ℕ) (l : List ℕ) (t : SphereGenerator V) :
    l.foldl (fun t' i =>
        (List.range N).foldl (fun t'' j => t''.buildCell i j) t') t =
      t.processCells (l.flatMap (fun i => (List.range N).map (fun j => (i, j)))) := by
  induction l generalizing t with
  | nil => rfl
  | cons i l ih =>
      simp only [List.foldl_cons, List.flatMap_cons]
      rw [processCells_append, ← foldl_inner_row, ih]

theorem buildSphere_eq_processCells (s : SphereGenerator V) :
    s.buildSphere = s.processCells (cellList s.u s.v) := by
  unfold buildSphere cellList
  exact foldl_nested s.u (List.range s.v) s

/-! ### Counting the generated vertices

`CInv s F` says the slots of the memo grid holding `Some` are exactly the
members of `F` (slots named `(u_step, v_step)`), and that the vertex list has
one entry per such slot. -/

def CInv (s : SphereGenerator V) (F : Finset (ℕ × ℕ)) : Prop :=
  (∀ a b : ℕ, (s.enqueued a b).isSome ↔ (a, b) ∈ F) ∧
  s.vertexData.length = F.card

theorem getIndex_cinv (s : SphereGenerator V) (vs us : ℕ)
    (F : Finset (ℕ × ℕ)) (h : CInv s F) :
    CInv (s.getIndex vs us).2 (insert (us, vs) F) := by
  obtain ⟨hmem, hcard⟩ := h
  unfold getIndex
  cases hq : s.enqueued us vs with
  | some ind =>
      have hin : (us, vs) ∈ F := (hmem us vs).1 (by simp [hq])
      have : insert (us, vs) F = F := Finset.insert_eq_self.2 hin
      rw [this]
      exact ⟨hmem, hcard⟩
  | none =>
      have hout : (us, vs) ∉ F := fun hin => by
        have := (hmem us vs).2 hin
        rw [hq] at this
        simp at this
      constructor
      · intro a b
        by_cases hab : a = us ∧ b = vs
        · obtain ⟨rfl, rfl⟩ := hab
          simp
        · have hne : (a, b) ≠ (us, vs) := by
            simp only [ne_eq, Prod.mk.injEq]
            tauto
          simp only [if_neg hab, Finset.mem_insert, hne, false_or]
          exact hmem a b
      · simp [hcard, Finset.card_insert_of_not_mem hout]

/-- The four slots cell `(i, j)` touches, in insertion order. -/
def cellInsert (c : ℕ × ℕ) (F : Finset (ℕ × ℕ)) : Finset (ℕ × ℕ) :=
  insert (c.2 + 1, c.1)
    (insert (c.2 + 1, c.1 + 1)
      (insert (c.2, c.1 + 1)
        (insert (c.2, c.1) F)))

theorem buildCell_cinv (s : SphereGenerator V) (i j : ℕ)
    (F : Finset (ℕ × ℕ)) (h : CInv s F) :
    CInv (s.buildCell i j) (cellInsert (i, j) F) := by
  unfold buildCell
  simp only
  have h0 := getIndex_cinv s i j F h
  have h1 := getIndex_cinv _ (i+1) j _ h0
  have h2 := getIndex_cinv _ (i+1) (j+1) _ h1
  have h3 := getIndex_cinv _ i (j+1) _ h2
  exact ⟨h3.1, h3.2⟩

theorem processCells_cinv (s : SphereGenerator V) (cells : List (ℕ × ℕ))
    (F : Finset (ℕ × ℕ)) (h : CInv s F) :
    CInv (s.processCells cells)
      (cells.foldl (fun G c => cellInsert c G) F) := by
  induction cells generalizing s F with
  | nil => exact h
  | cons c cs ih =>
      rw [processCells_cons, List.foldl_cons]
      exact ih _ _ (buildCell_cinv s c.1 c.2 F h)

theorem mem_cellInsert (p c : ℕ × ℕ) (F : Finset (ℕ × ℕ)) :
    p ∈ cellInsert c F ↔
      (p = (c.2, c.1) ∨ p = (c.2, c.1 + 1) ∨
       p = (c.2 + 1, c.1) ∨ p = (c.2 + 1, c.1 + 1)) ∨ p ∈ F := by
  simp only [cellInsert, Finset.mem_insert]
  tauto

theorem mem_foldl_cellInsert (cells : List (ℕ × ℕ)) (F : Finset (ℕ × ℕ))
    (p : ℕ × ℕ) :
    p ∈ cells.foldl (fun G c => cellInsert c G) F ↔
      p ∈ F ∨ ∃ c ∈ cells,
        p = (c.2, c.1) ∨ p = (c.2, c.1 + 1) ∨
        p = (c.2 + 1, c.1) ∨ p = (c.2 + 1, c.1 + 1) := by
  induction cells generalizing F with
  | nil => simp
  | cons c cs ih =>
      rw [List.foldl_cons, ih, mem_cellInsert]
      simp only [List.mem_cons]
      constructor
      · rintro (h | h)
        · rcases h with h | h
          · exact Or.inr ⟨c, Or.inl rfl, h⟩
          · exact Or.inl h
        · obtain ⟨d, hd, hp⟩ := h
          exact Or.inr ⟨d, Or.inr hd, hp⟩
      · rintro (h | ⟨d, hd | hd, hp⟩)
        · exact Or.inl (Or.inr h)
        · subst hd
          exact Or.inl (Or.inl hp)
        · exact Or.inr ⟨d, hd, hp⟩

theorem mem_cellList (u v : ℕ) (c : ℕ × ℕ) :
    c ∈ cellList u v ↔ c.1 < v ∧ c.2 < u := by
  cases c with
  | mk i j =>
      simp [cellList, List.mem_flatMap, List.mem_map, List.mem_range]

/-- With at least one cell in each direction, the slots the build touches are
exactly the full `(u+1) × (v+1)` grid. -/
theorem foldl_cellList_eq (u v : ℕ) (hu : 1 ≤ u) (hv : 1 ≤ v) :
    (cellList u v).foldl (fun G c => cellInsert c G) ∅ =
      Finset.range (u + 1) ×ˢ Finset.range (v + 1) := by
  ext p
  rw [mem_foldl_cellInsert]
  simp only [Finset.not_mem_empty, false_or, Finset.mem_product,
    Finset.mem_range]
  constructor
  · rintro ⟨c, hc, hp⟩
    rw [mem_cellList] at hc
    rcases hp with rfl | rfl | rfl | rfl <;> omega
  · rintro ⟨ha, hb⟩
    by_cases hb' : p.2 < v
    · by_cases ha' : p.1 < u
      · refine ⟨(p.2, p.1), ?_, ?_⟩
        · rw [mem_cellList]; exact ⟨hb', ha'⟩
        · exact Or.inl rfl
      · refine ⟨(p.2, u - 1), ?_, ?_⟩
        · rw [mem_cellList]; exact ⟨hb', by omega⟩
        · refine Or.inr (Or.inr (Or.inl ?_))
          have h1 : u - 1 + 1 = u := by omega
          have hp1 : p.1 = u := by omega
          rw [h1]
          exact Prod.ext hp1 rfl
    · by_cases ha' : p.1 < u
      · refine ⟨(v - 1, p.1), ?_, ?_⟩
        · rw [mem_cellList]; exact ⟨by omega, ha'⟩
        · refine Or.inr (Or.inl ?_)
          have h2 : v - 1 + 1 = v := by omega
          have hp2 : p.2 = v := by omega
          rw [h2]
          exact Prod.ext rfl hp2
      · refine ⟨(v - 1, u - 1), ?_, ?_⟩
        · rw [mem_cellList]; exact ⟨by omega, by omega⟩
        · refine Or.inr (Or.inr (Or.inr ?_))
          have h1 : u - 1 + 1 = u := by omega
          have h2 : v - 1 + 1 = v := by omega
          have hp1 : p.1 = u := by omega
          have hp2 : p.2 = v := by omega
          rw [h1, h2]
          exact Prod.ext hp1 hp2

theorem cellList_length (u v : ℕ) : (cellList u v).length = v * u := by
  simp only [cellList, List.length_flatMap, Function.comp_def,
    List.length_map, List.length_range]
  simp [List.map_const', List.sum_replicate, smul_eq_mul]

/-! ### Per-cell triangle blocks -/

/-- All four memo slots of cell `(i, j)` are filled. -/
def CornersSome (t : SphereGenerator V) (i j : ℕ) : Prop :=
  (t.enqueued j i).isSome ∧ (t.enqueued j (i + 1)).isSome ∧
  (t.enqueued (j + 1) i).isSome ∧ (t.enqueued (j + 1) (i + 1)).isSome

/-- `blockOf` only reads filled slots, so it is stable under any write-once
extension of the memo grid. -/
theorem blockOf_mono (t1 t2 : SphereGenerator V) (i j : ℕ)
    (hmono : ∀ a b x, t1.enqueued a b = some x → t2.enqueued a b = some x)
    (hc : CornersSome t1 i j) :
    t2.blockOf i j = t1.blockOf i j := by
  obtain ⟨h0, h1, h3, h2⟩ := hc
  obtain ⟨x0, hx0⟩ := Option.isSome_iff_exists.1 h0
  obtain ⟨x1, hx1⟩ := Option.isSome_iff_exists.1 h1
  obtain ⟨x3, hx3⟩ := Option.isSome_iff_exists.1 h3
  obtain ⟨x2, hx2⟩ := Option.isSome_iff_exists.1 h2
  simp only [blockOf]
  rw [hx0, hx1, hx2, hx3, hmono _ _ _ hx0, hmono _ _ _ hx1,
    hmono _ _ _ hx2, hmono _ _ _ hx3]

theorem buildCell_corners (s : SphereGenerator V) (i j : ℕ) :
    CornersSome (s.buildCell i j) i j := by
  unfold buildCell
  simp only
  set r0 := s.getIndex i j with hr0
  set r1 := r0.2.getIndex (i + 1) j with hr1
  set r2 := r1.2.getIndex (i + 1) (j + 1) with hr2
  set r3 := r2.2.getIndex i (j + 1) with hr3
  have e0 : r3.2.enqueued j i = some r0.1 :=
    getIndex_enq_mono _ _ _ _ _ _
      (getIndex_enq_mono _ _ _ _ _ _
        (getIndex_enq_mono _ _ _ _ _ _ (getIndex_ret s i j)))
  have e1 : r3.2.enqueued j (i + 1) = some r1.1 :=
    getIndex_enq_mono _ _ _ _ _ _
      (getIndex_enq_mono _ _ _ _ _ _ (getIndex_ret r0.2 (i + 1) j))
  have e2 : r3.2.enqueued (j + 1) (i + 1) = some r2.1 :=
    getIndex_enq_mono _ _ _ _ _ _ (getIndex_ret r1.2 (i + 1) (j + 1))
  have e3 : r3.2.enqueued (j + 1) i = some r3.1 := getIndex_ret r2.2 i (j + 1)
  refine ⟨?_, ?_, ?_, ?_⟩
  · show (r3.2.enqueued j i).isSome
    rw [e0]; rfl
  · show (r3.2.enqueued j (i + 1)).isSome
    rw [e1]; rfl
  · show (r3.2.enqueued (j + 1) i).isSome
    rw [e3]; rfl
  · show (r3.2.enqueued (j + 1) (i + 1)).isSome
    rw [e2]; rfl

/-- The indices `buildCell` appends are its own block: the memoized corner
indices in the order `p0, p1, p3, p3, p1, p2`. -/
theorem buildCell_indexData_eq (s : SphereGenerator V) (i j : ℕ) :
    (s.buildCell i j).indexData =
      s.indexData ++ (s.buildCell i j).blockOf i j := by
  unfold buildCell
  simp only
  set r0 := s.getIndex i j with hr0
  set r1 := r0.2.getIndex (i + 1) j with hr1
  set r2 := r1.2.getIndex (i + 1) (j + 1) with hr2
  set r3 := r2.2.getIndex i (j + 1) with hr3
  have e0 : r3.2.enqueued j i = some r0.1 :=
    getIndex_enq_mono _ _ _ _ _ _
      (getIndex_enq_mono _ _ _ _ _ _
        (getIndex_enq_mono _ _ _ _ _ _ (getIndex_ret s i j)))
  have e1 : r3.2.enqueued j (i + 1) = some r1.1 :=
    getIndex_enq_mono _ _ _ _ _ _
      (getIndex_enq_mono _ _ _ _ _ _ (getIndex_ret r0.2 (i + 1) j))
  have e2 : r3.2.enqueued (j + 1) (i + 1) = some r2.1 :=
    getIndex_enq_mono _ _ _ _ _ _ (getIndex_ret r1.2 (i + 1) (j + 1))
  have e3 : r3.2.enqueued (j + 1) i = some r3.1 := getIndex_ret r2.2 i (j + 1)
  have hind : r3.2.indexData = s.indexData := by
    rw [hr3, getIndex_indexData, hr2, getIndex_indexData, hr1,
      getIndex_indexData, hr0, getIndex_indexData]
  show r3.2.indexData ++ _ = s.indexData ++ _
  rw [hind]
  congr 1
  simp only [blockOf]
  rw [e0, e1, e2, e3]
  rfl

theorem buildCell_blockOf_stable (s : SphereGenerator V) (i j : ℕ)
    (cells : List (ℕ × ℕ)) :
    ((s.buildCell i j).processCells cells).blockOf i j =
      (s.buildCell i j).blockOf i j :=
  blockOf_mono _ _ _ _
    (fun a b x hx => processCells_enq_mono _ cells a b x hx)
    (buildCell_corners s i j)

/-- Every processed cell contributes exactly its block, in visit order. -/
theorem processCells_indexData_eq (s : SphereGenerator V)
    (cells : List (ℕ × ℕ)) :
    (s.processCells cells).indexData =
      s.indexData ++
        cells.flatMap (fun c => (s.processCells cells).blockOf c.1 c.2) := by
  induction cells generalizing s with
  | nil => simp [processCells_nil]
  | cons c cs ih =>
      rw [processCells_cons, List.flatMap_cons]
      rw [ih (s.buildCell c.1 c.2), buildCell_indexData_eq s c.1 c.2]
      rw [← processCells_cons]
      rw [show (s.processCells (c :: cs)).blockOf c.1 c.2 =
          (s.buildCell c.1 c.2).blockOf c.1 c.2 from
        buildCell_blockOf_stable s c.1 c.2 cs]
      rw [List.append_assoc]

/-! ### The main sphere theorems -/

end SphereGenerator

open SphereGenerator in
/-- C1: for all subdivision counts `u ≥ 2`, `v ≥ 2` (and any vertex-creation
function, in particular `create_sphere`'s), `build_sphere` emits exactly
`6 * u * v` indices, and every emitted index is strictly below the number of
generated vertices. -/
theorem sphere_index_count_and_bounds {V : Type} (mkV : ℕ → ℕ → V)
    (u v : ℕ) (_hu : 2 ≤ u) (_hv : 2 ≤ v) :
    ((SphereGenerator.new mkV u v).buildSphere).indexData.length = 6 * u * v ∧
    ∀ x ∈ ((SphereGenerator.new mkV u v).buildSphere).indexData,
      x < ((SphereGenerator.new mkV u v).buildSphere).vertexData.length := by
  rw [buildSphere_eq_processCells]
  have hwf0 : WF (SphereGenerator.new mkV u v) := by
    refine ⟨rfl, ?_, ?_⟩
    · intro a b x hx
      simp [SphereGenerator.new] at hx
    · intro x hx
      simp [SphereGenerator.new] at hx
  have hwf := processCells_wf _ (cellList u v) hwf0
  constructor
  · rw [processCells_indexData_len, cellList_length]
    show 0 + 6 * (v * u) = 6 * u * v
    ring
  · intro x hx
    obtain ⟨m, hm, rfl⟩ := hwf.2.2 x hx
    calc m % 65536 ≤ m := Nat.mod_le ..
      _ < _ := hm

open SphereGenerator in
/-- Closed witness for `sphere_index_count_and_bounds` at `u = v = 2`. -/
theorem sphere_index_count_and_bounds_witness :
    (2 ≤ 2 ∧ 2 ≤ 2) ∧
    (((SphereGenerator.new (fun _ _ => ()) 2 2).buildSphere).indexData.length =
        6 * 2 * 2 ∧
      ∀ x ∈ ((SphereGenerator.new (fun _ _ => ()) 2 2).buildSphere).indexData,
        x < ((SphereGenerator.new
          (fun _ _ => ()) 2 2).buildSphere).vertexData.length) :=
  ⟨⟨le_refl 2, le_refl 2⟩,
    sphere_index_count_and_bounds (fun _ _ => ()) 2 2 (le_refl 2) (le_refl 2)⟩

open SphereGenerator in
/-- C2: for all `u ≥ 1`, `v ≥ 1`, `build_sphere` generates exactly
`(u+1) * (v+1)` vertices — the memo grid stores the wrap-around longitude
column `u` separately from column `0`, both of which are filled at every
latitude step, so seam vertices are duplicated rather than shared. -/
theorem sphere_vertex_count_seam {V : Type} (mkV : ℕ → ℕ → V) (u v : ℕ)
    (hu : 1 ≤ u) (hv : 1 ≤ v) :
    ((SphereGenerator.new mkV u v).buildSphere).vertexData.length =
        (u + 1) * (v + 1) ∧
    ∀ i ≤ v,
      (((SphereGenerator.new mkV u v).buildSphere).enqueued 0 i).isSome ∧
      (((SphereGenerator.new mkV u v).buildSphere).enqueued u i).isSome := by
  have hb : (SphereGenerator.new mkV u v).buildSphere =
      (SphereGenerator.new mkV u v).processCells (cellList u v) :=
    buildSphere_eq_processCells _
  rw [hb]
  have hc0 : CInv (SphereGenerator.new mkV u v) ∅ := by
    constructor
    · intro a b
      simp [SphereGenerator.new]
    · simp [SphereGenerator.new]
  have hc := processCells_cinv _ (cellList u v) ∅ hc0
  rw [foldl_cellList_eq u v hu hv] at hc
  constructor
  · rw [hc.2, Finset.card_product, Finset.card_range, Finset.card_range]
  · intro i hi
    constructor
    · rw [hc.1]
      simp only [Finset.mem_product, Finset.mem_range]
      omega
    · rw [hc.1]
      simp only [Finset.mem_product, Finset.mem_range]
      omega

open SphereGenerator in
/-- Closed witness for `sphere_vertex_count_seam` at `u = v = 1`. -/
theorem sphere_vertex_count_seam_witness :
    (1 ≤ 1 ∧ 1 ≤ 1) ∧
    (((SphereGenerator.new (fun _ _ => ()) 1 1).buildSphere).vertexData.length =
        (1 + 1) * (1 + 1) ∧
      ∀ i ≤ 1,
        (((SphereGenerator.new (fun _ _ => ()) 1 1).buildSphere).enqueued
          0 i).isSome ∧
        (((SphereGenerator.new (fun _ _ => ()) 1 1).buildSphere).enqueued
          1 i).isSome) :=
  ⟨⟨le_refl 1, le_refl 1⟩,
    sphere_vertex_count_seam (fun _ _ => ()) 1 1 (le_refl 1) (le_refl 1)⟩

open SphereGenerator in
/-- C7: the index list of `build_sphere` is exactly the concatenation, over
the visited cells `(i, j)` in visit order, of the six corner indices
`p0, p1, p3, p3, p1, p2` — two triangles per cell drawn from the cell's four
memoized corner indices. -/
theorem sphere_cell_triangles {V : Type} (mkV : ℕ → ℕ → V) (u v : ℕ) :
    ((SphereGenerator.new mkV u v).buildSphere).indexData =
      (cellList u v).flatMap
        (fun c =>
          ((SphereGenerator.new mkV u v).buildSphere).blockOf c.1 c.2) := by
  have hb : (SphereGenerator.new mkV u v).buildSphere =
      (SphereGenerator.new mkV u v).processCells (cellList u v) :=
    buildSphere_eq_processCells _
  rw [hb]
  have h := processCells_indexData_eq (SphereGenerator.new mkV u v)
    (cellList u v)
  rw [show (SphereGenerator.new mkV u v).indexData = [] from rfl,
    List.nil_append] at h
  exact h

/-- C9: every vertex generated by the sphere generator lies at distance
exactly `radius` from the origin (for a nonnegative radius; the program's
calls use positive radii). -/
theorem sphere_vertex_norm (radius : ℝ) (u v : ℕ) (h : 0 ≤ radius) :
    ∀ vtx ∈ (create_sphere radius u v).vertexData,
      Real.sqrt (vtx.position.1 ^ 2 + vtx.position.2.1 ^ 2 +
        vtx.position.2.2 ^ 2) = radius := by
  intro vtx hv
  unfold create_sphere at hv
  rw [SphereGenerator.buildSphere_eq_processCells] at hv
  rcases SphereGenerator.processCells_vertex_mem _ _ _ hv with h0 | h0
  · simp [SphereGenerator.new] at h0
  · obtain ⟨a, b, hab⟩ := h0
    rw [show (SphereGenerator.new (sphereMk radius u v) u v).mkVertex =
        sphereMk radius u v from rfl] at hab
    subst hab
    unfold sphereMk create_sphere_vertex
    simp only
    set θ := (a : ℝ) * (Real.pi / v)
    set φ := (b : ℝ) * (2 * Real.pi / u)
    have h1 := Real.sin_sq_add_cos_sq θ
    have h2 := Real.sin_sq_add_cos_sq φ
    have hsq : (radius * Real.sin θ * Real.cos φ) ^ 2 +
        (radius * Real.cos θ) ^ 2 +
        (-(radius * Real.sin θ * Real.sin φ)) ^ 2 = radius ^ 2 := by
      linear_combination (radius ^ 2 * Real.sin θ ^ 2) * h2 +
        radius ^ 2 * h1
    rw [hsq, Real.sqrt_sq h]

/-- Closed witness for `sphere_vertex_norm`: the scenario
`create_sphere(radius=10, u=3, v=2)`. -/
theorem sphere_vertex_norm_witness :
    (0 : ℝ) ≤ 10 ∧
    ∀ vtx ∈ (create_sphere 10 3 2).vertexData,
      Real.sqrt (vtx.position.1 ^ 2 + vtx.position.2.1 ^ 2 +
        vtx.position.2.2 ^ 2) = 10 :=
  ⟨by norm_num, sphere_vertex_norm 10 3 2 (by norm_num)⟩

/-- Closed witness for `create_square_spec`: the concrete scenario conjunct. -/
theorem create_square_spec_witness :
    (∀ vtx ∈ (create_square 26 40).vertexData,
      (vtx.position.1 = 20 ∨ vtx.position.1 = -20) ∧
      (vtx.position.2.1 = 13 ∨ vtx.position.2.1 = -13)) ∧
    (create_square 26 40).indexData = [0, 1, 2, 2, 3, 0] :=
  create_square_spec.2

/-- Closed witness for `create_cube_spec` at `size = 2`. -/
theorem create_cube_spec_witness :
    (create_cube 2).vertexData.length = 8 ∧
    (create_cube 2).indexData.length = 36 ∧
    ∀ f < 6, ∀ idx ∈ cubeFaceBlock 2 f,
      ∃ h : idx < (create_cube 2).vertexData.length,
        onCubeFace 2 f (((create_cube 2).vertexData.get ⟨idx, h⟩).position) :=
  create_cube_spec 2

/-- Closed witness for `surface_error_handling` at a concrete loop state. -/
theorem surface_error_handling_witness :
    handleRenderResult ⟨(800, 600), 800, 600, 1, 0, false⟩ (some .Lost) =
        resize ⟨(800, 600), 800, 600, 1, 0, false⟩ (800, 600) ∧
    handleRenderResult ⟨(800, 600), 800, 600, 1, 0, false⟩
        (some .OutOfMemory) = ⟨(800, 600), 800, 600, 1, 0, true⟩ ∧
    handleRenderResult ⟨(800, 600), 800, 600, 1, 0, false⟩ (some .Timeout) =
        ⟨(800, 600), 800, 600, 1, 1, false⟩ ∧
    handleRenderResult ⟨(800, 600), 800, 600, 1, 0, false⟩ (some .Outdated) =
        ⟨(800, 600), 800, 600, 1, 1, false⟩ ∧
    handleRenderResult ⟨(800, 600), 800, 600, 1, 0, false⟩ none =
        ⟨(800, 600), 800, 600, 1, 0, false⟩ :=
  surface_error_handling ⟨(800, 600), 800, 600, 1, 0, false⟩

/-- Closed witness for `render_group_draw_calls`: a geometry group holding the
textured square of `State::new` with one instance. -/
theorem render_group_draw_calls_witness :
    (GeoRenderGroup.render
        ⟨⟨create_square 26 40⟩,
          ⟨[⟨((0 : ℚ), 0, 0), ⟨1, 0, 0, 0⟩⟩]⟩⟩).filter
        RenderCommand.isDraw =
      [.drawIndexed (0, (create_square 26 40).indexData.length) 0 (0, 1)] :=
  render_group_draw_calls.1 ℚ ℚ
    ⟨⟨create_square 26 40⟩, ⟨[⟨((0 : ℚ), 0, 0), ⟨1, 0, 0, 0⟩⟩]⟩⟩

open SphereGenerator in
/-- Closed witness for `sphere_cell_triangles` at `u = v = 2`. -/
theorem sphere_cell_triangles_witness :
    ((SphereGenerator.new (fun _ _ => ()) 2 2).buildSphere).indexData =
      (cellList 2 2).flatMap
        (fun c =>
          ((SphereGenerator.new (fun _ _ => ()) 2 2).buildSphere).blockOf
            c.1 c.2) :=
  sphere_cell_triangles (fun _ _ => ()) 2 2

end LearnGraphics
